import Mathlib

/-!
# Verification of the cc-NUMA directory cache-coherence simulator

A shallow embedding of the simulator in main.cpp of the repository
(directory-based cache coherence for 4 MIPS SMP nodes, 2 processors per
node, direct-mapped caches, 64 words of globally addressed memory).

The machine state mirrors the C++ data layout bit for bit:
each node has registers[2][2][32], caches[2][4][37]
(bit 0 = valid, bits 1-4 = tag, bits 5-36 = data),
memory[16][32] and directory[16][6]
(bits 0-1 = state with 00 uncached / 01 shared / 11 dirty,
bits 2-5 = presence bits of nodes 0-3).
Arrays of bool are embedded as functions from Nat to Bool; a C++ loop
writing a contiguous range of bits becomes a function update guarded by
the same range condition, so every off-by-one of the source is preserved.
-/

namespace NumaSim

/-- One SMP node: mirrors struct Node of the source
(registers[2][2][32], caches[2][4][37], memory[16][32], directory[16][6]).
Each bool array is embedded as a curried function from indices to Bool. -/
structure Node where
  registers : Nat → Nat → Nat → Bool
  caches    : Nat → Nat → Nat → Bool
  memory    : Nat → Nat → Bool
  directory : Nat → Nat → Bool

/-- The whole machine: the global array systemNodes[4] together with the
global clockCount accumulator. -/
structure Machine where
  nodes : Nat → Node
  clockCount : Nat

/-- decimalTo32BitBinary of the source: bit i of the 32-bit big-endian
encoding of a value (bit 31 is the least significant bit). -/
def decimalTo32BitBinary (v : Nat) : Nat → Bool :=
  fun i => v / 2 ^ (31 - i) % 2 == 1

/-- The four tag bits computed at the top of memoryAccess / writeToMem:
iTag = memoryAddress / 4, tag[3] = iTag % 2, then iTag is halved for each
earlier bit, so tag[0] is the most significant tag bit. -/
def tagBit (memoryAddress : Nat) : Nat → Bool
  | 0 => memoryAddress / 4 / 8 % 2 == 1
  | 1 => memoryAddress / 4 / 4 % 2 == 1
  | 2 => memoryAddress / 4 / 2 % 2 == 1
  | _ => memoryAddress / 4 % 2 == 1

/-- The five-fold condition used throughout the source to test a cache
line: valid bit set and the four tag bits equal to the tag of the
address (lines 212-217 and the analogous blocks). -/
def cacheMatch (nd : Node) (cpu cacheIndex memoryAddress : Nat) : Bool :=
  nd.caches cpu cacheIndex 0 &&
  (nd.caches cpu cacheIndex 1 == tagBit memoryAddress 0) &&
  (nd.caches cpu cacheIndex 2 == tagBit memoryAddress 1) &&
  (nd.caches cpu cacheIndex 3 == tagBit memoryAddress 2) &&
  (nd.caches cpu cacheIndex 4 == tagBit memoryAddress 3)

/-- Directory state 00 (uncached) per the encoding documented in the
source (struct comment, bits 0-1). -/
def dirUncached (nd : Node) (entry : Nat) : Bool :=
  !nd.directory entry 0 && !nd.directory entry 1

/-- Directory state 01 (shared). -/
def dirShared (nd : Node) (entry : Nat) : Bool :=
  !nd.directory entry 0 && nd.directory entry 1

/-- Directory state 11 (dirty). -/
def dirDirty (nd : Node) (entry : Nat) : Bool :=
  nd.directory entry 0 && nd.directory entry 1

/-- The address reconstruction inside writeBack (lines 481-492).  The
doubling sits inside the if, exactly as in the source, so a clear tag
bit does not shift the accumulator. -/
def wbStep (a : Nat) (b : Bool) : Nat :=
  if b then a * 2 + 1 else a

/-- Global address recomputed by writeBack from the tag field (cache
bits 1-4) and the cache index: the loop over i = 1..4 followed by
memoryAddress = memoryAddress * 4 + cacheIndex. -/
def reconstructedAddress (nd : Node) (cpu cacheIndex : Nat) : Nat :=
  wbStep (wbStep (wbStep (wbStep 0
    (nd.caches cpu cacheIndex 1))
    (nd.caches cpu cacheIndex 2))
    (nd.caches cpu cacheIndex 3))
    (nd.caches cpu cacheIndex 4) * 4 + cacheIndex

/-- writeBack (lines 476-504): if the line is valid, reconstruct its
global address, and copy the 32 data bits to home memory when the home
directory entry of the reconstructed address has both state bits set
(dirty); otherwise do nothing. -/
def writeBack (m : Machine) (nodeIndex cpuIndex cacheIndex : Nat) : Machine :=
  if (m.nodes nodeIndex).caches cpuIndex cacheIndex 0 then
    let memoryAddress := reconstructedAddress (m.nodes nodeIndex) cpuIndex cacheIndex
    let homeNode := memoryAddress / 16
    let localMemAddress := memoryAddress % 16
    if (m.nodes homeNode).directory localMemAddress 0 &&
       (m.nodes homeNode).directory localMemAddress 1 then
      { m with nodes := fun n =>
          { m.nodes n with memory := fun w i =>
              if n = homeNode ∧ w = localMemAddress ∧ i < 32 then
                (m.nodes nodeIndex).caches cpuIndex cacheIndex (i + 5)
              else (m.nodes n).memory w i } }
    else m
  else m

/-- Load case 1 (lines 218-223): local hit.  The source copies cache
bits i+4 (not i+5) into the register, so the copied word is the last
tag bit followed by the first 31 data bits. -/
def loadCase1 (m : Machine) (nodeIndex cpuIndex cacheIndex reg : Nat) : Machine :=
  { m with
    clockCount := m.clockCount + 1,
    nodes := fun n =>
      { m.nodes n with registers := fun c r i =>
          if n = nodeIndex ∧ c = cpuIndex ∧ r = reg ∧ i < 32 then
            (m.nodes nodeIndex).caches cpuIndex cacheIndex (i + 4)
          else (m.nodes n).registers c r i } }

/-- Load case 2 (lines 237-254): hit in the sibling cache on the same
node.  Data bits 5-36 are copied into register and local line; the
valid/tag copy loop runs over i = 0..3 only, so cache bit 4 (the last
tag bit) keeps its old value. -/
def loadCase2 (m : Machine) (nodeIndex cpuIndex otherCPU cacheIndex reg : Nat) : Machine :=
  { m with
    clockCount := m.clockCount + 30,
    nodes := fun n =>
      { m.nodes n with
        registers := fun c r i =>
          if n = nodeIndex ∧ c = cpuIndex ∧ r = reg ∧ i < 32 then
            (m.nodes nodeIndex).caches otherCPU cacheIndex (i + 5)
          else (m.nodes n).registers c r i,
        caches := fun c l b =>
          if n = nodeIndex ∧ c = cpuIndex ∧ l = cacheIndex ∧ (b < 4 ∨ 5 ≤ b ∧ b < 37) then
            (m.nodes nodeIndex).caches otherCPU cacheIndex b
          else (m.nodes n).caches c l b } }

/-- Load case 3 (lines 267-287): fetch from home memory when the home
directory entry is uncached or shared.  Register and local line receive
the memory word, the line becomes valid with the full tag, and the
directory entry becomes shared with the presence bit of the requesting
node set. -/
def loadCase3 (m : Machine) (nodeIndex cpuIndex cacheIndex homeNode localMemIndex memoryAddress reg : Nat) : Machine :=
  { m with
    clockCount := m.clockCount + 100,
    nodes := fun n =>
      { m.nodes n with
        registers := fun c r i =>
          if n = nodeIndex ∧ c = cpuIndex ∧ r = reg ∧ i < 32 then
            (m.nodes homeNode).memory localMemIndex i
          else (m.nodes n).registers c r i,
        caches := fun c l b =>
          if n = nodeIndex ∧ c = cpuIndex ∧ l = cacheIndex then
            (if b = 0 then true
             else if 1 ≤ b ∧ b < 5 then tagBit memoryAddress (b - 1)
             else if 5 ≤ b ∧ b < 37 then (m.nodes homeNode).memory localMemIndex (b - 5)
             else (m.nodes n).caches c l b)
          else (m.nodes n).caches c l b,
        directory := fun e b =>
          if n = homeNode ∧ e = localMemIndex then
            (if b = 0 then false
             else if b = 1 then true
             else if b = 2 + nodeIndex then true
             else (m.nodes n).directory e b)
          else (m.nodes n).directory e b } }

/-- The search for the dirty node (lines 293-298): the first of the four
presence bits that is set; the C++ -1 sentinel is embedded as none. -/
def findDirtyNode (m : Machine) (homeNode localMemIndex : Nat) : Option Nat :=
  if (m.nodes homeNode).directory localMemIndex 2 then some 0
  else if (m.nodes homeNode).directory localMemIndex 3 then some 1
  else if (m.nodes homeNode).directory localMemIndex 4 then some 2
  else if (m.nodes homeNode).directory localMemIndex 5 then some 3
  else none

/-- The search for the dirty cpu (lines 301-319): cpu 0 if its line is
valid with matching tag, else cpu 1, else the -1 sentinel (none). -/
def findDirtyCPU (nd : Node) (cacheIndex memoryAddress : Nat) : Option Nat :=
  if cacheMatch nd 0 cacheIndex memoryAddress then some 0
  else if cacheMatch nd 1 cacheIndex memoryAddress then some 1
  else none

/-- Load case 4 (lines 289-341): dirty migration.  The source copies the
dirty line to home memory, to the register of the requester, and to
systemNodes[homeNode] (not systemNodes[nodeIndex]) at the cpu of the
requester; it then validates and tags that homeNode line and sets the
directory entry to shared with presence bit 2 + homeNode set, never
clearing the presence bit of the former owner.  When a search returns
the -1 sentinel, the C++ indexes out of bounds (undefined behavior);
the embedding then changes only the clock, a branch unreachable under
the directory invariant (see the safety claim). -/
def loadCase4 (m : Machine) (nodeIndex cpuIndex cacheIndex homeNode localMemIndex memoryAddress reg : Nat) : Machine :=
  match findDirtyNode m homeNode localMemIndex with
  | none => { m with clockCount := m.clockCount + 135 }
  | some dirtyNode =>
    match findDirtyCPU (m.nodes dirtyNode) cacheIndex memoryAddress with
    | none => { m with clockCount := m.clockCount + 135 }
    | some dirtyCPU =>
      { m with
        clockCount := m.clockCount + 135,
        nodes := fun n =>
          { registers := fun c r i =>
              if n = nodeIndex ∧ c = cpuIndex ∧ r = reg ∧ i < 32 then
                (m.nodes dirtyNode).caches dirtyCPU cacheIndex (i + 5)
              else (m.nodes n).registers c r i,
            memory := fun w i =>
              if n = homeNode ∧ w = localMemIndex ∧ i < 32 then
                (m.nodes dirtyNode).caches dirtyCPU cacheIndex (i + 5)
              else (m.nodes n).memory w i,
            caches := fun c l b =>
              if n = homeNode ∧ c = cpuIndex ∧ l = cacheIndex then
                (if b = 0 then true
                 else if 1 ≤ b ∧ b < 5 then tagBit memoryAddress (b - 1)
                 else if 5 ≤ b ∧ b < 37 then
                   (m.nodes dirtyNode).caches dirtyCPU cacheIndex b
                 else (m.nodes n).caches c l b)
              else (m.nodes n).caches c l b,
            directory := fun e b =>
              if n = homeNode ∧ e = localMemIndex then
                (if b = 0 then false
                 else if b = 1 then true
                 else if b = 2 + homeNode then true
                 else (m.nodes n).directory e b)
              else (m.nodes n).directory e b } }

/-- The load path of memoryAccess (lines 194-344) for opcode 100011:
case 1 on a local hit; otherwise writeBack on the victim line, then
case 2 on a sibling hit, then case 3 when the home directory entry is
uncached (00) or shared (01), else case 4. -/
def loadAccess (m : Machine) (nodeIndex cpuIndex memoryAddress reg : Nat) : Machine :=
  let cacheIndex := memoryAddress % 4
  if cacheMatch (m.nodes nodeIndex) cpuIndex cacheIndex memoryAddress then
    loadCase1 m nodeIndex cpuIndex cacheIndex reg
  else
    let m1 := writeBack m nodeIndex cpuIndex cacheIndex
    let otherCPU := (cpuIndex + 1) % 2
    if cacheMatch (m1.nodes nodeIndex) otherCPU cacheIndex memoryAddress then
      loadCase2 m1 nodeIndex cpuIndex otherCPU cacheIndex reg
    else
      let homeNode := memoryAddress / 16
      let localMemIndex := memoryAddress % 16
      if ((m1.nodes homeNode).directory localMemIndex 0 = false ∧
          (m1.nodes homeNode).directory localMemIndex 1 = false) ∨
         ((m1.nodes homeNode).directory localMemIndex 0 = false ∧
          (m1.nodes homeNode).directory localMemIndex 1 = true) then
        loadCase3 m1 nodeIndex cpuIndex cacheIndex homeNode localMemIndex memoryAddress reg
      else
        loadCase4 m1 nodeIndex cpuIndex cacheIndex homeNode localMemIndex memoryAddress reg

/-- The invalidation loop shared verbatim by both store branches
(lines 399-415 and 443-459): for every node whose presence bit is set
and every cpu whose line at cacheIndex is valid with matching tag,
clear the valid bit. -/
def invalidateCopies (m : Machine) (homeNode localMemIndex cacheIndex memoryAddress : Nat) : Machine :=
  { m with nodes := fun n =>
      { m.nodes n with caches := fun c l b =>
          if n < 4 ∧ (m.nodes homeNode).directory localMemIndex (2 + n) = true ∧
             c < 2 ∧ l = cacheIndex ∧ b = 0 ∧
             cacheMatch (m.nodes n) c cacheIndex memoryAddress = true then
            false
          else (m.nodes n).caches c l b } }

/-- Store case 1 (lines 391-432): write hit.  Sets the home directory
state bits to 11 (presence bits untouched), runs the invalidation loop,
then re-validates the local line, rewrites its tag and stores the
register into its data bits. -/
def storeHit (m : Machine) (nodeIndex cpuIndex cacheIndex homeNode localMemIndex memoryAddress reg : Nat) : Machine :=
  let m1 := { m with
    clockCount := m.clockCount + 1,
    nodes := fun n =>
      { m.nodes n with directory := fun e b =>
          if n = homeNode ∧ e = localMemIndex ∧ (b = 0 ∨ b = 1) then true
          else (m.nodes n).directory e b } }
  let m2 := invalidateCopies m1 homeNode localMemIndex cacheIndex memoryAddress
  { m2 with nodes := fun n =>
      { m2.nodes n with caches := fun c l b =>
          if n = nodeIndex ∧ c = cpuIndex ∧ l = cacheIndex then
            (if b = 0 then true
             else if 1 ≤ b ∧ b < 5 then tagBit memoryAddress (b - 1)
             else if 5 ≤ b ∧ b < 37 then (m2.nodes nodeIndex).registers cpuIndex reg (b - 5)
             else (m2.nodes n).caches c l b)
          else (m2.nodes n).caches c l b } }

/-- Store case 2 (lines 433-469): write miss.  Writes the register into
home memory, runs the invalidation loop, and downgrades the directory
state from 11 to 01 when it was dirty (otherwise leaves it unchanged);
no cache line is written. -/
def storeMiss (m : Machine) (nodeIndex cpuIndex cacheIndex homeNode localMemIndex memoryAddress reg : Nat) : Machine :=
  let m1 := { m with
    clockCount := m.clockCount + 100,
    nodes := fun n =>
      { m.nodes n with memory := fun w i =>
          if n = homeNode ∧ w = localMemIndex ∧ i < 32 then
            (m.nodes nodeIndex).registers cpuIndex reg i
          else (m.nodes n).memory w i } }
  let m2 := invalidateCopies m1 homeNode localMemIndex cacheIndex memoryAddress
  if (m2.nodes homeNode).directory localMemIndex 0 = true ∧
     (m2.nodes homeNode).directory localMemIndex 1 = true then
    { m2 with nodes := fun n =>
        { m2.nodes n with directory := fun e b =>
            if n = homeNode ∧ e = localMemIndex ∧ b = 0 then false
            else if n = homeNode ∧ e = localMemIndex ∧ b = 1 then true
            else (m2.nodes n).directory e b } }
  else m2

/-- writeToMem (lines 363-471): the store path, guarded on opcode
101011, dispatching on the local-hit test. -/
def writeToMem (m : Machine) (nodeIndex cpuIndex : Nat) (opCode : String) (memoryAddress reg : Nat) : Machine :=
  if opCode = "101011" then
    let cacheIndex := memoryAddress % 4
    let homeNode := memoryAddress / 16
    let localMemIndex := memoryAddress % 16
    if cacheMatch (m.nodes nodeIndex) cpuIndex cacheIndex memoryAddress then
      storeHit m nodeIndex cpuIndex cacheIndex homeNode localMemIndex memoryAddress reg
    else
      storeMiss m nodeIndex cpuIndex cacheIndex homeNode localMemIndex memoryAddress reg
  else m

/-- One decoded memory access as handed to memoryAccess by the driver. -/
structure Access where
  nodeIndex : Nat
  cpuIndex : Nat
  opCode : String
  memoryAddress : Nat
  reg : Nat

/-- memoryAccess (lines 194-349): runs the load block when the opcode
is 100011 and calls writeToMem when it is 101011. -/
def memoryAccess (m : Machine) (a : Access) : Machine :=
  let m1 := if a.opCode = "100011" then
    loadAccess m a.nodeIndex a.cpuIndex a.memoryAddress a.reg
  else m
  if a.opCode = "101011" then
    writeToMem m1 a.nodeIndex a.cpuIndex a.opCode a.memoryAddress a.reg
  else m1

/-- A load-word access (opcode 100011). -/
def lw (n c a r : Nat) : Access :=
  { nodeIndex := n, cpuIndex := c, opCode := "100011", memoryAddress := a, reg := r }

/-- A store-word access (opcode 101011). -/
def sw (n c a r : Nat) : Access :=
  { nodeIndex := n, cpuIndex := c, opCode := "101011", memoryAddress := a, reg := r }

/-- Running a list of accesses in order. -/
def runAccesses (m : Machine) : List Access → Machine
  | [] => m
  | a :: l => runAccesses (memoryAccess m a) l

/-- initializeSystem (lines 582-599): clock 0; every memory word j of
node i holds the 32-bit encoding of i * 16 + j + 5.  The source
documents the remaining fields as reset to all zeros (the comment above
the function); the embedding takes them to be false. -/
def initializeSystem : Machine :=
  { clockCount := 0,
    nodes := fun i =>
      { registers := fun _ _ _ => false,
        caches := fun _ _ _ => false,
        memory := fun j k => decimalTo32BitBinary (i * 16 + j + 5) k,
        directory := fun _ _ => false } }

/-- The per-access clock cost, classified by the same branch structure
as memoryAccess: 1/30/100/135 for load cases 1-4, 1/100 for store
hit/miss, 0 for any other opcode. -/
def accessCost (m : Machine) (a : Access) : Nat :=
  if a.opCode = "100011" then
    let cacheIndex := a.memoryAddress % 4
    if cacheMatch (m.nodes a.nodeIndex) a.cpuIndex cacheIndex a.memoryAddress then 1
    else
      let m1 := writeBack m a.nodeIndex a.cpuIndex cacheIndex
      if cacheMatch (m1.nodes a.nodeIndex) ((a.cpuIndex + 1) % 2) cacheIndex a.memoryAddress then 30
      else
        let homeNode := a.memoryAddress / 16
        let localMemIndex := a.memoryAddress % 16
        if ((m1.nodes homeNode).directory localMemIndex 0 = false ∧
            (m1.nodes homeNode).directory localMemIndex 1 = false) ∨
           ((m1.nodes homeNode).directory localMemIndex 0 = false ∧
            (m1.nodes homeNode).directory localMemIndex 1 = true) then 100
        else 135
  else if a.opCode = "101011" then
    if cacheMatch (m.nodes a.nodeIndex) a.cpuIndex (a.memoryAddress % 4) a.memoryAddress then 1
    else 100
  else 0

/-- Sum of the classified costs along a run, each access costed at the
state in which it executes. -/
def runCost (m : Machine) : List Access → Nat
  | [] => 0
  | a :: l => accessCost m a + runCost (memoryAccess m a) l

/-! ## Basic preservation lemmas -/

theorem writeBack_clockCount (m : Machine) (x y z : Nat) :
    (writeBack m x y z).clockCount = m.clockCount := by
  simp only [writeBack]
  split
  · split
    · rfl
    · rfl
  · rfl

theorem writeBack_caches (m : Machine) (x y z n : Nat) :
    ((writeBack m x y z).nodes n).caches = (m.nodes n).caches := by
  simp only [writeBack]
  split
  · split
    · rfl
    · rfl
  · rfl

theorem writeBack_directory (m : Machine) (x y z n : Nat) :
    ((writeBack m x y z).nodes n).directory = (m.nodes n).directory := by
  simp only [writeBack]
  split
  · split
    · rfl
    · rfl
  · rfl

theorem writeBack_registers (m : Machine) (x y z n : Nat) :
    ((writeBack m x y z).nodes n).registers = (m.nodes n).registers := by
  simp only [writeBack]
  split
  · split
    · rfl
    · rfl
  · rfl

theorem cacheMatch_writeBack (m : Machine) (x y z n c ci a : Nat) :
    cacheMatch ((writeBack m x y z).nodes n) c ci a = cacheMatch (m.nodes n) c ci a := by
  unfold cacheMatch
  rw [writeBack_caches]

/-! ## Clock arithmetic of the individual cases -/

theorem loadCase1_clockCount (m : Machine) (n c ci r : Nat) :
    (loadCase1 m n c ci r).clockCount = m.clockCount + 1 := rfl

theorem loadCase2_clockCount (m : Machine) (n c o ci r : Nat) :
    (loadCase2 m n c o ci r).clockCount = m.clockCount + 30 := rfl

theorem loadCase3_clockCount (m : Machine) (n c ci h l a r : Nat) :
    (loadCase3 m n c ci h l a r).clockCount = m.clockCount + 100 := rfl

theorem loadCase4_clockCount (m : Machine) (n c ci h l a r : Nat) :
    (loadCase4 m n c ci h l a r).clockCount = m.clockCount + 135 := by
  simp only [loadCase4]
  split
  · rfl
  · split
    · rfl
    · rfl

theorem storeHit_clockCount (m : Machine) (n c ci h l a r : Nat) :
    (storeHit m n c ci h l a r).clockCount = m.clockCount + 1 := rfl

theorem storeMiss_clockCount (m : Machine) (n c ci h l a r : Nat) :
    (storeMiss m n c ci h l a r).clockCount = m.clockCount + 100 := by
  simp only [storeMiss]
  split
  · rfl
  · rfl

theorem loadAccess_clockCount (m : Machine) (n c a r : Nat) :
    (loadAccess m n c a r).clockCount = m.clockCount +
      (if cacheMatch (m.nodes n) c (a % 4) a then 1
       else if cacheMatch ((writeBack m n c (a % 4)).nodes n) ((c + 1) % 2) (a % 4) a then 30
       else if (((writeBack m n c (a % 4)).nodes (a / 16)).directory (a % 16) 0 = false ∧
                ((writeBack m n c (a % 4)).nodes (a / 16)).directory (a % 16) 1 = false) ∨
               (((writeBack m n c (a % 4)).nodes (a / 16)).directory (a % 16) 0 = false ∧
                ((writeBack m n c (a % 4)).nodes (a / 16)).directory (a % 16) 1 = true) then 100
       else 135) := by
  simp only [loadAccess]
  split
  · rfl
  · split
    · rw [loadCase2_clockCount, writeBack_clockCount]
    · split
      · rw [loadCase3_clockCount, writeBack_clockCount]
      · rw [loadCase4_clockCount, writeBack_clockCount]

theorem writeToMem_clockCount (m : Machine) (n c : Nat) (op : String) (a r : Nat) :
    (writeToMem m n c op a r).clockCount = m.clockCount +
      (if op = "101011" then
        (if cacheMatch (m.nodes n) c (a % 4) a then 1 else 100)
       else 0) := by
  simp only [writeToMem]
  split
  · split
    · rw [storeHit_clockCount]
    · rw [storeMiss_clockCount]
  · rfl

theorem memoryAccess_clockCount (m : Machine) (a : Access) :
    (memoryAccess m a).clockCount = m.clockCount + accessCost m a := by
  simp only [memoryAccess, accessCost]
  by_cases h1 : a.opCode = "100011"
  · have h2 : ¬ a.opCode = "101011" := by rw [h1]; decide
    rw [if_pos h1, if_pos h1, if_neg h2, loadAccess_clockCount]
  · rw [if_neg h1, if_neg h1]
    by_cases h2 : a.opCode = "101011"
    · rw [if_pos h2, writeToMem_clockCount, if_pos h2]
    · rw [if_neg h2, if_neg h2]; rfl

theorem runAccesses_clockCount (l : List Access) : ∀ m : Machine,
    (runAccesses m l).clockCount = m.clockCount + runCost m l := by
  induction l with
  | nil => intro m; simp [runAccesses, runCost]
  | cons a l ih =>
    intro m
    simp only [runAccesses, runCost]
    rw [ih, memoryAccess_clockCount, Nat.add_assoc]

/-- Claim C9: clockCount starts at 0 in the initialized machine, every
memoryAccess adds exactly its classified cost (1/30/100/135 for load
cases 1-4, 1/100 for store hit/miss, nothing otherwise), so after any
sequence of accesses the clock equals the sum of the classified costs,
and the clock is monotonically non-decreasing across any run. -/
theorem clock_accounting :
    initializeSystem.clockCount = 0 ∧
    (∀ (m : Machine) (a : Access),
      (memoryAccess m a).clockCount = m.clockCount + accessCost m a) ∧
    (∀ (m : Machine) (l : List Access),
      (runAccesses m l).clockCount = m.clockCount + runCost m l) ∧
    (∀ (m : Machine) (l : List Access),
      m.clockCount ≤ (runAccesses m l).clockCount) := by
  refine ⟨rfl, memoryAccess_clockCount, fun m l => runAccesses_clockCount l m, fun m l => ?_⟩
  rw [runAccesses_clockCount l m]
  exact Nat.le_add_right _ _

/-! ## Pointwise behavior of load case 3 -/

theorem loadCase3_memory (m : Machine) (n c ci h l a r k : Nat) :
    ((loadCase3 m n c ci h l a r).nodes k).memory = (m.nodes k).memory := rfl

theorem loadCase3_register (m : Machine) (n c ci h l a r i : Nat) (hi : i < 32) :
    ((loadCase3 m n c ci h l a r).nodes n).registers c r i = (m.nodes h).memory l i := by
  simp [loadCase3, hi]

theorem loadCase3_cacheData (m : Machine) (n c ci h l a r i : Nat) (hi : i < 32) :
    ((loadCase3 m n c ci h l a r).nodes n).caches c ci (i + 5) = (m.nodes h).memory l i := by
  have h0 : ¬(i + 5 = 0) := by omega
  have h1 : ¬(1 ≤ i + 5 ∧ i + 5 < 5) := by omega
  have h2 : 5 ≤ i + 5 ∧ i + 5 < 37 := ⟨by omega, by omega⟩
  simp [loadCase3, h0, h1, h2]

theorem loadCase3_valid (m : Machine) (n c ci h l a r : Nat) :
    ((loadCase3 m n c ci h l a r).nodes n).caches c ci 0 = true := by
  simp [loadCase3]

theorem loadCase3_tag (m : Machine) (n c ci h l a r i : Nat) (hi : i < 4) :
    ((loadCase3 m n c ci h l a r).nodes n).caches c ci (i + 1) = tagBit a i := by
  have h0 : ¬(i + 1 = 0) := by omega
  have h1 : 1 ≤ i + 1 ∧ i + 1 < 5 := ⟨by omega, by omega⟩
  simp [loadCase3, h0, h1]

theorem loadCase3_dirState (m : Machine) (n c ci h l a r : Nat) :
    ((loadCase3 m n c ci h l a r).nodes h).directory l 0 = false ∧
    ((loadCase3 m n c ci h l a r).nodes h).directory l 1 = true := by
  simp [loadCase3]

theorem loadCase3_presence (m : Machine) (n c ci h l a r : Nat) :
    ((loadCase3 m n c ci h l a r).nodes h).directory l (2 + n) = true := by
  have h0 : ¬(2 + n = 0) := by omega
  have h1 : ¬(2 + n = 1) := by omega
  simp [loadCase3, h0, h1]

theorem loadCase3_presence_other (m : Machine) (n c ci h l a r i : Nat) (hne : i ≠ n) :
    ((loadCase3 m n c ci h l a r).nodes h).directory l (2 + i) =
    (m.nodes h).directory l (2 + i) := by
  have h0 : ¬(2 + i = 0) := by omega
  have h1 : ¬(2 + i = 1) := by omega
  have h2 : ¬(2 + i = 2 + n) := by omega
  simp [loadCase3, h0, h1, h2]

/-! ## Reduction of memoryAccess on the two opcodes -/

theorem memoryAccess_lw (m : Machine) (n c a r : Nat) :
    memoryAccess m (lw n c a r) = loadAccess m n c a r := by
  simp [memoryAccess, lw]

theorem memoryAccess_sw (m : Machine) (n c a r : Nat) :
    memoryAccess m (sw n c a r) = writeToMem m n c "101011" a r := by
  simp [memoryAccess, sw]

/-- Claim C7: a load that misses both caches of the requesting node while
the home directory entry is uncached or shared takes the home clean
fetch: afterwards the register and the local cache line data equal the
home memory word, the line is valid with the full tag of the address,
the directory entry is shared with the presence bit of the requesting
node set and every other presence bit unchanged (the requesting node is
added to the presence set, nothing else moves), and the clock has
increased by exactly 100. -/
theorem home_clean_fetch (m : Machine) (nodeIndex cpuIndex memoryAddress reg : Nat)
    (hnode : nodeIndex < 4) (hcpu : cpuIndex < 2) (haddr : memoryAddress < 64) (hreg : reg < 2)
    (hmiss1 : cacheMatch (m.nodes nodeIndex) cpuIndex (memoryAddress % 4) memoryAddress = false)
    (hmiss2 : cacheMatch (m.nodes nodeIndex) ((cpuIndex + 1) % 2) (memoryAddress % 4) memoryAddress = false)
    (hclean : dirUncached (m.nodes (memoryAddress / 16)) (memoryAddress % 16) = true ∨
              dirShared (m.nodes (memoryAddress / 16)) (memoryAddress % 16) = true) :
    (memoryAccess m (lw nodeIndex cpuIndex memoryAddress reg)).clockCount = m.clockCount + 100 ∧
    (∀ i : Fin 32,
      ((memoryAccess m (lw nodeIndex cpuIndex memoryAddress reg)).nodes nodeIndex).registers
          cpuIndex reg i.val =
      ((memoryAccess m (lw nodeIndex cpuIndex memoryAddress reg)).nodes
          (memoryAddress / 16)).memory (memoryAddress % 16) i.val) ∧
    (∀ i : Fin 32,
      ((memoryAccess m (lw nodeIndex cpuIndex memoryAddress reg)).nodes nodeIndex).caches
          cpuIndex (memoryAddress % 4) (i.val + 5) =
      ((memoryAccess m (lw nodeIndex cpuIndex memoryAddress reg)).nodes
          (memoryAddress / 16)).memory (memoryAddress % 16) i.val) ∧
    ((memoryAccess m (lw nodeIndex cpuIndex memoryAddress reg)).nodes nodeIndex).caches
        cpuIndex (memoryAddress % 4) 0 = true ∧
    (∀ i : Fin 4,
      ((memoryAccess m (lw nodeIndex cpuIndex memoryAddress reg)).nodes nodeIndex).caches
          cpuIndex (memoryAddress % 4) (i.val + 1) = tagBit memoryAddress i.val) ∧
    dirShared ((memoryAccess m (lw nodeIndex cpuIndex memoryAddress reg)).nodes
        (memoryAddress / 16)) (memoryAddress % 16) = true ∧
    ((memoryAccess m (lw nodeIndex cpuIndex memoryAddress reg)).nodes
        (memoryAddress / 16)).directory (memoryAddress % 16) (2 + nodeIndex) = true ∧
    (∀ i : Fin 4, i.val ≠ nodeIndex →
      ((memoryAccess m (lw nodeIndex cpuIndex memoryAddress reg)).nodes
          (memoryAddress / 16)).directory (memoryAddress % 16) (2 + i.val) =
      (m.nodes (memoryAddress / 16)).directory (memoryAddress % 16) (2 + i.val)) := by
  have hd : (((m.nodes (memoryAddress / 16)).directory (memoryAddress % 16) 0 = false ∧
              (m.nodes (memoryAddress / 16)).directory (memoryAddress % 16) 1 = false) ∨
             ((m.nodes (memoryAddress / 16)).directory (memoryAddress % 16) 0 = false ∧
              (m.nodes (memoryAddress / 16)).directory (memoryAddress % 16) 1 = true)) := by
    rcases hclean with h | h
    · left
      simpa [dirUncached] using h
    · right
      simpa [dirShared] using h
  have e : memoryAccess m (lw nodeIndex cpuIndex memoryAddress reg)
      = loadCase3 (writeBack m nodeIndex cpuIndex (memoryAddress % 4)) nodeIndex cpuIndex
          (memoryAddress % 4) (memoryAddress / 16) (memoryAddress % 16) memoryAddress reg := by
    rw [memoryAccess_lw]
    simp only [loadAccess]
    rw [cacheMatch_writeBack, writeBack_directory]
    rw [if_neg (by simp [hmiss1]), if_neg (by simp [hmiss2]), if_pos hd]
  rw [e]
  refine ⟨by rw [loadCase3_clockCount, writeBack_clockCount], fun i => ?_, fun i => ?_,
    loadCase3_valid _ _ _ _ _ _ _ _, fun i => loadCase3_tag _ _ _ _ _ _ _ _ _ i.isLt, ?_, ?_, ?_⟩
  · rw [loadCase3_register _ _ _ _ _ _ _ _ _ i.isLt, loadCase3_memory]
  · rw [loadCase3_cacheData _ _ _ _ _ _ _ _ _ i.isLt, loadCase3_memory]
  · have hs := loadCase3_dirState (writeBack m nodeIndex cpuIndex (memoryAddress % 4)) nodeIndex
      cpuIndex (memoryAddress % 4) (memoryAddress / 16) (memoryAddress % 16) memoryAddress reg
    simp [dirShared, hs.1, hs.2]
  · exact loadCase3_presence _ _ _ _ _ _ _ _
  · intro i hne
    rw [loadCase3_presence_other _ _ _ _ _ _ _ _ _ hne, writeBack_directory]

/-- Witness for the home clean fetch theorem: the cold load of address 5
by node 0 cpu 0 from the initialized machine (the scenario of the spec).
Afterwards the register holds the 32-bit encoding of 10 and the presence
bits of entry 5 are exactly the singleton of node 0: bit 2 is set by the
theorem while the bits of nodes 1, 2 and 3 are clear. -/
theorem home_clean_fetch_witness :
    cacheMatch (initializeSystem.nodes 0) 0 (5 % 4) 5 = false ∧
    dirUncached (initializeSystem.nodes (5 / 16)) (5 % 16) = true ∧
    ((memoryAccess initializeSystem (lw 0 0 5 0)).clockCount = initializeSystem.clockCount + 100 ∧
     (∀ i : Fin 32,
       ((memoryAccess initializeSystem (lw 0 0 5 0)).nodes 0).registers 0 0 i.val =
       ((memoryAccess initializeSystem (lw 0 0 5 0)).nodes (5 / 16)).memory (5 % 16) i.val) ∧
     (∀ i : Fin 32,
       ((memoryAccess initializeSystem (lw 0 0 5 0)).nodes 0).caches 0 (5 % 4) (i.val + 5) =
       ((memoryAccess initializeSystem (lw 0 0 5 0)).nodes (5 / 16)).memory (5 % 16) i.val) ∧
     ((memoryAccess initializeSystem (lw 0 0 5 0)).nodes 0).caches 0 (5 % 4) 0 = true ∧
     (∀ i : Fin 4,
       ((memoryAccess initializeSystem (lw 0 0 5 0)).nodes 0).caches 0 (5 % 4) (i.val + 1) =
       tagBit 5 i.val) ∧
     dirShared ((memoryAccess initializeSystem (lw 0 0 5 0)).nodes (5 / 16)) (5 % 16) = true ∧
     ((memoryAccess initializeSystem (lw 0 0 5 0)).nodes (5 / 16)).directory (5 % 16) (2 + 0) = true ∧
     (∀ i : Fin 4, i.val ≠ 0 →
       ((memoryAccess initializeSystem (lw 0 0 5 0)).nodes (5 / 16)).directory (5 % 16) (2 + i.val) =
       (initializeSystem.nodes (5 / 16)).directory (5 % 16) (2 + i.val))) ∧
    ((memoryAccess initializeSystem (lw 0 0 5 0)).nodes (5 / 16)).directory (5 % 16) 3 = false ∧
    ((memoryAccess initializeSystem (lw 0 0 5 0)).nodes (5 / 16)).directory (5 % 16) 4 = false ∧
    ((memoryAccess initializeSystem (lw 0 0 5 0)).nodes (5 / 16)).directory (5 % 16) 5 = false ∧
    (∀ i : Fin 32,
      ((memoryAccess initializeSystem (lw 0 0 5 0)).nodes 0).registers 0 0 i.val =
      decimalTo32BitBinary 10 i.val) := by
  refine ⟨by decide, by decide, ?_, by decide, by decide, by decide, by decide⟩
  exact home_clean_fetch initializeSystem 0 0 5 0 (by decide) (by decide) (by decide) (by decide)
    (by decide) (by decide) (Or.inl (by decide))

/-! ## cacheMatch only reads the caches field -/

theorem cacheMatch_set_memory (nd : Node) (f : Nat → Nat → Bool) (c ci a : Nat) :
    cacheMatch { nd with memory := f } c ci a = cacheMatch nd c ci a := rfl

theorem cacheMatch_set_directory (nd : Node) (f : Nat → Nat → Bool) (c ci a : Nat) :
    cacheMatch { nd with directory := f } c ci a = cacheMatch nd c ci a := rfl

theorem cacheMatch_set_registers (nd : Node) (f : Nat → Nat → Nat → Bool) (c ci a : Nat) :
    cacheMatch { nd with registers := f } c ci a = cacheMatch nd c ci a := rfl

/-! ## Pointwise behavior of the store miss -/

theorem storeMiss_memory (m : Machine) (n c ci h l a r i : Nat) (hi : i < 32) :
    ((storeMiss m n c ci h l a r).nodes h).memory l i = (m.nodes n).registers c r i := by
  simp only [storeMiss, invalidateCopies]
  split
  · simp [hi]
  · simp [hi]

theorem storeMiss_writer_line (m : Machine) (n c ci h l a r : Nat)
    (hm : cacheMatch (m.nodes n) c ci a = false) (b : Nat) :
    ((storeMiss m n c ci h l a r).nodes n).caches c ci b = (m.nodes n).caches c ci b := by
  simp only [storeMiss, invalidateCopies]
  split
  · simp [cacheMatch_set_memory, hm]
  · simp [cacheMatch_set_memory, hm]

theorem storeMiss_invalidates (m : Machine) (n c ci h l a r k j : Nat)
    (hk : k < 4) (hj : j < 2)
    (hp : (m.nodes h).directory l (2 + k) = true)
    (hm : cacheMatch (m.nodes k) j ci a = true) :
    ((storeMiss m n c ci h l a r).nodes k).caches j ci 0 = false := by
  simp only [storeMiss, invalidateCopies]
  split
  · simp [cacheMatch_set_memory, hk, hj, hp, hm]
  · simp [cacheMatch_set_memory, hk, hj, hp, hm]

theorem storeMiss_dirty_downgrade (m : Machine) (n c ci h l a r : Nat)
    (hd : dirDirty (m.nodes h) l = true) :
    dirShared ((storeMiss m n c ci h l a r).nodes h) l = true := by
  simp only [dirDirty, Bool.and_eq_true] at hd
  simp only [storeMiss, invalidateCopies]
  rw [if_pos ⟨hd.1, hd.2⟩]
  simp [dirShared]

theorem storeMiss_dir_clean_unchanged (m : Machine) (n c ci h l a r : Nat)
    (hd : dirDirty (m.nodes h) l = false) (b : Nat) :
    ((storeMiss m n c ci h l a r).nodes h).directory l b = (m.nodes h).directory l b := by
  have hd' : ¬((m.nodes h).directory l 0 = true ∧ (m.nodes h).directory l 1 = true) := by
    intro hc
    rw [dirDirty, hc.1, hc.2] at hd
    exact absurd hd (by decide)
  simp only [storeMiss, invalidateCopies]
  rw [if_neg hd']

theorem storeMiss_directory_presence (m : Machine) (n c ci h l a r k e i : Nat) :
    ((storeMiss m n c ci h l a r).nodes k).directory e (2 + i) =
    (m.nodes k).directory e (2 + i) := by
  have h0 : ¬(2 + i = 0) := by omega
  have h1 : ¬(2 + i = 1) := by omega
  simp only [storeMiss, invalidateCopies]
  split
  · simp [h0, h1]
  · rfl

/-- Claim C8: a store that misses the local cache of the requester writes
the register directly into home memory, invalidates every valid matching
copy held by a node in the presence set, downgrades a dirty directory
entry to shared and leaves an uncached or shared entry
unchanged, never touches the presence bits (the writer is not added),
installs nothing in the writer cache, and costs exactly 100 cycles. -/
theorem store_write_miss (m : Machine) (nodeIndex cpuIndex memoryAddress reg : Nat)
    (hnode : nodeIndex < 4) (hcpu : cpuIndex < 2) (haddr : memoryAddress < 64) (hreg : reg < 2)
    (hmiss : cacheMatch (m.nodes nodeIndex) cpuIndex (memoryAddress % 4) memoryAddress = false) :
    (memoryAccess m (sw nodeIndex cpuIndex memoryAddress reg)).clockCount = m.clockCount + 100 ∧
    (∀ i : Fin 32,
      ((memoryAccess m (sw nodeIndex cpuIndex memoryAddress reg)).nodes
          (memoryAddress / 16)).memory (memoryAddress % 16) i.val =
      (m.nodes nodeIndex).registers cpuIndex reg i.val) ∧
    (∀ k : Fin 4, ∀ j : Fin 2,
      (m.nodes (memoryAddress / 16)).directory (memoryAddress % 16) (2 + k.val) = true →
      cacheMatch (m.nodes k.val) j.val (memoryAddress % 4) memoryAddress = true →
      ((memoryAccess m (sw nodeIndex cpuIndex memoryAddress reg)).nodes k.val).caches
          j.val (memoryAddress % 4) 0 = false) ∧
    (dirDirty (m.nodes (memoryAddress / 16)) (memoryAddress % 16) = true →
      dirShared ((memoryAccess m (sw nodeIndex cpuIndex memoryAddress reg)).nodes
          (memoryAddress / 16)) (memoryAddress % 16) = true) ∧
    (dirDirty (m.nodes (memoryAddress / 16)) (memoryAddress % 16) = false →
      ∀ b : Fin 2,
        ((memoryAccess m (sw nodeIndex cpuIndex memoryAddress reg)).nodes
            (memoryAddress / 16)).directory (memoryAddress % 16) b.val =
        (m.nodes (memoryAddress / 16)).directory (memoryAddress % 16) b.val) ∧
    (∀ i : Fin 4,
      ((memoryAccess m (sw nodeIndex cpuIndex memoryAddress reg)).nodes
          (memoryAddress / 16)).directory (memoryAddress % 16) (2 + i.val) =
      (m.nodes (memoryAddress / 16)).directory (memoryAddress % 16) (2 + i.val)) ∧
    (∀ b : Fin 37,
      ((memoryAccess m (sw nodeIndex cpuIndex memoryAddress reg)).nodes nodeIndex).caches
          cpuIndex (memoryAddress % 4) b.val =
      (m.nodes nodeIndex).caches cpuIndex (memoryAddress % 4) b.val) := by
  have e : memoryAccess m (sw nodeIndex cpuIndex memoryAddress reg)
      = storeMiss m nodeIndex cpuIndex (memoryAddress % 4) (memoryAddress / 16)
          (memoryAddress % 16) memoryAddress reg := by
    rw [memoryAccess_sw]
    simp only [writeToMem]
    rw [if_pos trivial, if_neg (by simp [hmiss])]
  rw [e]
  exact ⟨storeMiss_clockCount _ _ _ _ _ _ _ _,
    fun i => storeMiss_memory _ _ _ _ _ _ _ _ _ i.isLt,
    fun k j hp hm => storeMiss_invalidates _ _ _ _ _ _ _ _ _ _ k.isLt j.isLt hp hm,
    fun hd => storeMiss_dirty_downgrade _ _ _ _ _ _ _ _ hd,
    fun hd b => storeMiss_dir_clean_unchanged _ _ _ _ _ _ _ _ hd b.val,
    fun i => storeMiss_directory_presence _ _ _ _ _ _ _ _ _ _ _,
    fun b => storeMiss_writer_line _ _ _ _ _ _ _ _ hmiss b.val⟩

/-- Witness for the store write-miss theorem: node 1 cpu 0 stores
register 0 (all zeros) to address 20 in the initialized machine. -/
theorem store_write_miss_witness :
    cacheMatch (initializeSystem.nodes 1) 0 (20 % 4) 20 = false ∧
    ((memoryAccess initializeSystem (sw 1 0 20 0)).clockCount = initializeSystem.clockCount + 100 ∧
     (∀ i : Fin 32,
       ((memoryAccess initializeSystem (sw 1 0 20 0)).nodes (20 / 16)).memory (20 % 16) i.val =
       (initializeSystem.nodes 1).registers 0 0 i.val) ∧
     (∀ k : Fin 4, ∀ j : Fin 2,
       (initializeSystem.nodes (20 / 16)).directory (20 % 16) (2 + k.val) = true →
       cacheMatch (initializeSystem.nodes k.val) j.val (20 % 4) 20 = true →
       ((memoryAccess initializeSystem (sw 1 0 20 0)).nodes k.val).caches j.val (20 % 4) 0 = false) ∧
     (dirDirty (initializeSystem.nodes (20 / 16)) (20 % 16) = true →
       dirShared ((memoryAccess initializeSystem (sw 1 0 20 0)).nodes (20 / 16)) (20 % 16) = true) ∧
     (dirDirty (initializeSystem.nodes (20 / 16)) (20 % 16) = false →
       ∀ b : Fin 2,
         ((memoryAccess initializeSystem (sw 1 0 20 0)).nodes (20 / 16)).directory (20 % 16) b.val =
         (initializeSystem.nodes (20 / 16)).directory (20 % 16) b.val) ∧
     (∀ i : Fin 4,
       ((memoryAccess initializeSystem (sw 1 0 20 0)).nodes (20 / 16)).directory (20 % 16) (2 + i.val) =
       (initializeSystem.nodes (20 / 16)).directory (20 % 16) (2 + i.val)) ∧
     (∀ b : Fin 37,
       ((memoryAccess initializeSystem (sw 1 0 20 0)).nodes 1).caches 0 (20 % 4) b.val =
       (initializeSystem.nodes 1).caches 0 (20 % 4) b.val)) := by
  refine ⟨by decide, ?_⟩
  exact store_write_miss initializeSystem 1 0 20 0 (by decide) (by decide) (by decide) (by decide)
    (by decide)

/-! ## Pointwise behavior of the store hit -/

theorem storeHit_dirDirty (m : Machine) (n c ci h l a r : Nat) :
    dirDirty ((storeHit m n c ci h l a r).nodes h) l = true := by
  simp [storeHit, invalidateCopies, dirDirty]

theorem storeHit_presence (m : Machine) (n c ci h l a r k e i : Nat) :
    ((storeHit m n c ci h l a r).nodes k).directory e (2 + i) =
    (m.nodes k).directory e (2 + i) := by
  have h0 : ¬(2 + i = 0) := by omega
  have h1 : ¬(2 + i = 1) := by omega
  simp [storeHit, invalidateCopies, h0, h1]

theorem storeHit_invalidates (m : Machine) (n c ci h l a r k j : Nat)
    (hk : k < 4) (hj : j < 2)
    (hp : (m.nodes h).directory l (2 + k) = true)
    (hm : cacheMatch (m.nodes k) j ci a = true)
    (hne : ¬(k = n ∧ j = c)) :
    ((storeHit m n c ci h l a r).nodes k).caches j ci 0 = false := by
  have h0 : ¬(2 + k = 0) := by omega
  have h1 : ¬(2 + k = 1) := by omega
  simp only [storeHit, invalidateCopies]
  simp [cacheMatch_set_directory, h0, h1, hp, hm, hk, hj, hne]

theorem storeHit_writer_valid (m : Machine) (n c ci h l a r : Nat) :
    ((storeHit m n c ci h l a r).nodes n).caches c ci 0 = true := by
  simp [storeHit, invalidateCopies]

theorem storeHit_writer_tag (m : Machine) (n c ci h l a r i : Nat) (hi : i < 4) :
    ((storeHit m n c ci h l a r).nodes n).caches c ci (i + 1) = tagBit a i := by
  have h0 : ¬(i + 1 = 0) := by omega
  have h1 : 1 ≤ i + 1 ∧ i + 1 < 5 := ⟨by omega, by omega⟩
  simp [storeHit, invalidateCopies, h0, h1]

theorem storeHit_writer_data (m : Machine) (n c ci h l a r i : Nat) (hi : i < 32) :
    ((storeHit m n c ci h l a r).nodes n).caches c ci (i + 5) =
    (m.nodes n).registers c r i := by
  have h0 : ¬(i + 5 = 0) := by omega
  have h1 : ¬(1 ≤ i + 5 ∧ i + 5 < 5) := by omega
  have h2 : 5 ≤ i + 5 ∧ i + 5 < 37 := ⟨by omega, by omega⟩
  simp [storeHit, invalidateCopies, h0, h1, h2]

/-- Claim C3 (amended): a store whose own cache line is valid with the
matching tag sets the home directory state to Dirty while leaving all
four presence bits exactly as they were (the presence set is not reset
to the requester only), invalidates every valid matching line of a
presence-set node other than the line being rewritten, re-validates the
writer line with the full tag and the register data, and costs exactly
1 cycle. -/
theorem store_write_hit (m : Machine) (nodeIndex cpuIndex memoryAddress reg : Nat)
    (hnode : nodeIndex < 4) (hcpu : cpuIndex < 2) (haddr : memoryAddress < 64) (hreg : reg < 2)
    (hhit : cacheMatch (m.nodes nodeIndex) cpuIndex (memoryAddress % 4) memoryAddress = true) :
    (memoryAccess m (sw nodeIndex cpuIndex memoryAddress reg)).clockCount = m.clockCount + 1 ∧
    dirDirty ((memoryAccess m (sw nodeIndex cpuIndex memoryAddress reg)).nodes
        (memoryAddress / 16)) (memoryAddress % 16) = true ∧
    (∀ i : Fin 4,
      ((memoryAccess m (sw nodeIndex cpuIndex memoryAddress reg)).nodes
          (memoryAddress / 16)).directory (memoryAddress % 16) (2 + i.val) =
      (m.nodes (memoryAddress / 16)).directory (memoryAddress % 16) (2 + i.val)) ∧
    (∀ k : Fin 4, ∀ j : Fin 2,
      (m.nodes (memoryAddress / 16)).directory (memoryAddress % 16) (2 + k.val) = true →
      cacheMatch (m.nodes k.val) j.val (memoryAddress % 4) memoryAddress = true →
      ¬(k.val = nodeIndex ∧ j.val = cpuIndex) →
      ((memoryAccess m (sw nodeIndex cpuIndex memoryAddress reg)).nodes k.val).caches
          j.val (memoryAddress % 4) 0 = false) ∧
    ((memoryAccess m (sw nodeIndex cpuIndex memoryAddress reg)).nodes nodeIndex).caches
        cpuIndex (memoryAddress % 4) 0 = true ∧
    (∀ i : Fin 4,
      ((memoryAccess m (sw nodeIndex cpuIndex memoryAddress reg)).nodes nodeIndex).caches
          cpuIndex (memoryAddress % 4) (i.val + 1) = tagBit memoryAddress i.val) ∧
    (∀ i : Fin 32,
      ((memoryAccess m (sw nodeIndex cpuIndex memoryAddress reg)).nodes nodeIndex).caches
          cpuIndex (memoryAddress % 4) (i.val + 5) =
      (m.nodes nodeIndex).registers cpuIndex reg i.val) := by
  have e : memoryAccess m (sw nodeIndex cpuIndex memoryAddress reg)
      = storeHit m nodeIndex cpuIndex (memoryAddress % 4) (memoryAddress / 16)
          (memoryAddress % 16) memoryAddress reg := by
    rw [memoryAccess_sw]
    simp only [writeToMem]
    rw [if_pos trivial, if_pos hhit]
  rw [e]
  exact ⟨storeHit_clockCount _ _ _ _ _ _ _ _,
    storeHit_dirDirty _ _ _ _ _ _ _ _,
    fun i => storeHit_presence _ _ _ _ _ _ _ _ _ _ _,
    fun k j hp hm hne => storeHit_invalidates _ _ _ _ _ _ _ _ _ _ k.isLt j.isLt hp hm hne,
    storeHit_writer_valid _ _ _ _ _ _ _ _,
    fun i => storeHit_writer_tag _ _ _ _ _ _ _ _ _ i.isLt,
    fun i => storeHit_writer_data _ _ _ _ _ _ _ _ _ i.isLt⟩

/-- Counterexample to claim C3 as stated: after node 0 and node 1 have
both loaded address 5 (directory Shared with presence bits for nodes 0
and 1), a store by node 0 cpu 0 to address 5 is a write hit, yet the
presence bit of node 1 is still set afterwards, so the directory entry
is not Dirty with presence equal to the requester node only. -/
theorem store_write_hit_counterexample :
    cacheMatch ((runAccesses initializeSystem [lw 0 0 5 0, lw 1 0 5 0]).nodes 0) 0 (5 % 4) 5
      = true ∧
    ((runAccesses initializeSystem [lw 0 0 5 0, lw 1 0 5 0, sw 0 0 5 0]).nodes 0).directory 5 3
      = true ∧
    ((runAccesses initializeSystem [lw 0 0 5 0, lw 1 0 5 0, sw 0 0 5 0]).nodes 1).caches 0 1 0
      = false := by
  refine ⟨by decide, by decide, by decide⟩

/-- Witness for the amended store write-hit theorem: node 0 cpu 0 first
loads address 5 and then stores to it, a write hit. -/
theorem store_write_hit_witness :
    cacheMatch ((runAccesses initializeSystem [lw 0 0 5 0]).nodes 0) 0 (5 % 4) 5 = true ∧
    ((memoryAccess (runAccesses initializeSystem [lw 0 0 5 0]) (sw 0 0 5 0)).clockCount =
      (runAccesses initializeSystem [lw 0 0 5 0]).clockCount + 1 ∧
     dirDirty ((memoryAccess (runAccesses initializeSystem [lw 0 0 5 0]) (sw 0 0 5 0)).nodes
        (5 / 16)) (5 % 16) = true ∧
     (∀ i : Fin 4,
       ((memoryAccess (runAccesses initializeSystem [lw 0 0 5 0]) (sw 0 0 5 0)).nodes
          (5 / 16)).directory (5 % 16) (2 + i.val) =
       ((runAccesses initializeSystem [lw 0 0 5 0]).nodes (5 / 16)).directory (5 % 16) (2 + i.val)) ∧
     (∀ k : Fin 4, ∀ j : Fin 2,
       ((runAccesses initializeSystem [lw 0 0 5 0]).nodes (5 / 16)).directory (5 % 16) (2 + k.val) = true →
       cacheMatch ((runAccesses initializeSystem [lw 0 0 5 0]).nodes k.val) j.val (5 % 4) 5 = true →
       ¬(k.val = 0 ∧ j.val = 0) →
       ((memoryAccess (runAccesses initializeSystem [lw 0 0 5 0]) (sw 0 0 5 0)).nodes k.val).caches
          j.val (5 % 4) 0 = false) ∧
     ((memoryAccess (runAccesses initializeSystem [lw 0 0 5 0]) (sw 0 0 5 0)).nodes 0).caches
        0 (5 % 4) 0 = true ∧
     (∀ i : Fin 4,
       ((memoryAccess (runAccesses initializeSystem [lw 0 0 5 0]) (sw 0 0 5 0)).nodes 0).caches
          0 (5 % 4) (i.val + 1) = tagBit 5 i.val) ∧
     (∀ i : Fin 32,
       ((memoryAccess (runAccesses initializeSystem [lw 0 0 5 0]) (sw 0 0 5 0)).nodes 0).caches
          0 (5 % 4) (i.val + 5) =
       ((runAccesses initializeSystem [lw 0 0 5 0]).nodes 0).registers 0 0 i.val)) := by
  refine ⟨by decide, ?_⟩
  exact store_write_hit (runAccesses initializeSystem [lw 0 0 5 0]) 0 0 5 0 (by decide) (by decide)
    (by decide) (by decide) (by decide)

/-- Claim C10: at a dirty-migration load, if the directory invariant
holds for the dirty entry (exactly one presence bit, at node n, and
node n holds a valid line with the matching tag in one of its two
caches), then both searches succeed: findDirtyNode returns node n and
findDirtyCPU returns cpu 0 or cpu 1, so the -1 sentinels of the source
are never used as indices. -/
theorem dirty_owner_search_safe (m : Machine) (n memoryAddress : Nat)
    (hn : n < 4)
    (hdirty : dirDirty (m.nodes (memoryAddress / 16)) (memoryAddress % 16) = true)
    (hbit : (m.nodes (memoryAddress / 16)).directory (memoryAddress % 16) (2 + n) = true)
    (hothers : ∀ i : Fin 4, i.val ≠ n →
      (m.nodes (memoryAddress / 16)).directory (memoryAddress % 16) (2 + i.val) = false)
    (hcache : cacheMatch (m.nodes n) 0 (memoryAddress % 4) memoryAddress = true ∨
              cacheMatch (m.nodes n) 1 (memoryAddress % 4) memoryAddress = true) :
    findDirtyNode m (memoryAddress / 16) (memoryAddress % 16) = some n ∧
    (findDirtyCPU (m.nodes n) (memoryAddress % 4) memoryAddress = some 0 ∨
     findDirtyCPU (m.nodes n) (memoryAddress % 4) memoryAddress = some 1) := by
  have ho : ∀ i, i < 4 → i ≠ n →
      (m.nodes (memoryAddress / 16)).directory (memoryAddress % 16) (2 + i) = false :=
    fun i hi => hothers ⟨i, hi⟩
  constructor
  · interval_cases n
    · simp [findDirtyNode, hbit]
    · simp [findDirtyNode, hbit, ho 0 (by norm_num) (by norm_num)]
    · simp [findDirtyNode, hbit, ho 0 (by norm_num) (by norm_num),
        ho 1 (by norm_num) (by norm_num)]
    · simp [findDirtyNode, hbit, ho 0 (by norm_num) (by norm_num),
        ho 1 (by norm_num) (by norm_num), ho 2 (by norm_num) (by norm_num)]
  · rcases hcache with h | h
    · left
      simp [findDirtyCPU, h]
    · by_cases h0 : cacheMatch (m.nodes n) 0 (memoryAddress % 4) memoryAddress = true
      · left
        simp [findDirtyCPU, h0]
      · right
        simp [findDirtyCPU, h0, h]

/-- Witness for the dirty-owner search theorem: after node 0 cpu 0
loads and then stores to address 5 the entry is Dirty with presence
exactly at node 0 and a valid matching line in cpu 0 of node 0. -/
theorem dirty_owner_search_safe_witness :
    dirDirty ((runAccesses initializeSystem [lw 0 0 5 0, sw 0 0 5 0]).nodes (5 / 16)) (5 % 16)
      = true ∧
    ((runAccesses initializeSystem [lw 0 0 5 0, sw 0 0 5 0]).nodes (5 / 16)).directory (5 % 16)
      (2 + 0) = true ∧
    (∀ i : Fin 4, i.val ≠ 0 →
      ((runAccesses initializeSystem [lw 0 0 5 0, sw 0 0 5 0]).nodes (5 / 16)).directory (5 % 16)
        (2 + i.val) = false) ∧
    (findDirtyNode (runAccesses initializeSystem [lw 0 0 5 0, sw 0 0 5 0]) (5 / 16) (5 % 16)
        = some 0 ∧
     (findDirtyCPU ((runAccesses initializeSystem [lw 0 0 5 0, sw 0 0 5 0]).nodes 0) (5 % 4) 5
        = some 0 ∨
      findDirtyCPU ((runAccesses initializeSystem [lw 0 0 5 0, sw 0 0 5 0]).nodes 0) (5 % 4) 5
        = some 1)) := by
  refine ⟨by decide, by decide, by decide, ?_⟩
  exact dirty_owner_search_safe (runAccesses initializeSystem [lw 0 0 5 0, sw 0 0 5 0]) 0 5
    (by decide) (by decide) (by decide) (by decide) (Or.inl (by decide))

/-! ## Evaluations exhibiting divergences of the code from the spec -/

/-- Claim C1: evaluation refuting the central directory invariant on a
reachable state.  After loads of address 5 by node 0 and node 1 and a
write-hit store by node 0, the entry of word 5 is Dirty (bits 0 and 1
set) with the presence bits of both node 0 and node 1 set, while both
cache lines of node 1 at index 1 are invalid: the presence set is not
the set of valid holders, and Dirty does not have exactly one bit. -/
theorem directory_invariant_refuted :
    ((runAccesses initializeSystem [lw 0 0 5 0, lw 1 0 5 0, sw 0 0 5 0]).nodes 0).directory 5 0
      = true ∧
    ((runAccesses initializeSystem [lw 0 0 5 0, lw 1 0 5 0, sw 0 0 5 0]).nodes 0).directory 5 1
      = true ∧
    ((runAccesses initializeSystem [lw 0 0 5 0, lw 1 0 5 0, sw 0 0 5 0]).nodes 0).directory 5 2
      = true ∧
    ((runAccesses initializeSystem [lw 0 0 5 0, lw 1 0 5 0, sw 0 0 5 0]).nodes 0).directory 5 3
      = true ∧
    ((runAccesses initializeSystem [lw 0 0 5 0, lw 1 0 5 0, sw 0 0 5 0]).nodes 1).caches 0 1 0
      = false ∧
    ((runAccesses initializeSystem [lw 0 0 5 0, lw 1 0 5 0, sw 0 0 5 0]).nodes 1).caches 1 1 0
      = false := by
  refine ⟨by decide, by decide, by decide, by decide, by decide, by decide⟩

/-- Claim C2: evaluation of the dirty-migration scenario of the spec.
Node 0 cpu 0 loads address 5 then store-hits it with register 1 (all
zeros), so the entry is Dirty with presence at node 0 and the dirty line
holds zeros.  The subsequent load by node 1 cpu 0 charges 135 cycles,
makes the entry Shared, and writes the zeros back to home memory (bit 28
of word 5 drops from the initial 10), but the presence bit of node 1
stays clear, the presence bit of node 0 (the home node) is set instead,
and no line is installed in the cache of node 1: the directory is
Shared at node 0, not Shared at node 1 as the claim states. -/
theorem dirty_migration_diverges :
    (runAccesses initializeSystem [lw 0 0 5 0, sw 0 0 5 1, lw 1 0 5 0]).clockCount = 236 ∧
    ((runAccesses initializeSystem [lw 0 0 5 0, sw 0 0 5 1, lw 1 0 5 0]).nodes 0).directory 5 0
      = false ∧
    ((runAccesses initializeSystem [lw 0 0 5 0, sw 0 0 5 1, lw 1 0 5 0]).nodes 0).directory 5 1
      = true ∧
    ((runAccesses initializeSystem [lw 0 0 5 0, sw 0 0 5 1, lw 1 0 5 0]).nodes 0).memory 5 28
      = false ∧
    ((runAccesses initializeSystem [lw 0 0 5 0, sw 0 0 5 1, lw 1 0 5 0]).nodes 0).directory 5 3
      = false ∧
    ((runAccesses initializeSystem [lw 0 0 5 0, sw 0 0 5 1, lw 1 0 5 0]).nodes 0).directory 5 2
      = true ∧
    ((runAccesses initializeSystem [lw 0 0 5 0, sw 0 0 5 1, lw 1 0 5 0]).nodes 1).caches 0 1 0
      = false := by
  refine ⟨by decide, by decide, by decide, by decide, by decide, by decide, by decide⟩

/-- Claim C4: evaluation of the sibling-hit load.  Node 0 cpu 0 loads
address 4 (tag 0001), then cpu 1 of the same node loads it too; the
sibling hit is taken (30 cycles), but only cache bits 0 to 3 are copied,
so the last tag bit of the requester line stays 0 although the tag bit
of the address and of the sibling line is 1: the requester line does not
carry the full 4-bit tag of the sibling. -/
theorem sibling_hit_tag_diverges :
    (runAccesses initializeSystem [lw 0 0 4 0, lw 0 1 4 0]).clockCount = 130 ∧
    tagBit 4 3 = true ∧
    ((runAccesses initializeSystem [lw 0 0 4 0, lw 0 1 4 0]).nodes 0).caches 0 0 4 = true ∧
    ((runAccesses initializeSystem [lw 0 0 4 0, lw 0 1 4 0]).nodes 0).caches 1 0 0 = true ∧
    ((runAccesses initializeSystem [lw 0 0 4 0, lw 0 1 4 0]).nodes 0).caches 1 0 4 = false := by
  refine ⟨by decide, by decide, by decide, by decide, by decide⟩

/-- Claim C5: evaluation of the local-hit load.  Node 0 cpu 0 loads
address 5 twice; the second load is a local hit (1 cycle), but the
register copy reads cache bits 4 to 35 instead of the data bits 5 to
36, so bit 0 of the register receives the last tag bit (1) while bit 0
of the line data word is 0: the register does not equal the data word
of the line. -/
theorem local_hit_register_diverges :
    (runAccesses initializeSystem [lw 0 0 5 0, lw 0 0 5 0]).clockCount = 101 ∧
    ((runAccesses initializeSystem [lw 0 0 5 0, lw 0 0 5 0]).nodes 0).registers 0 0 0 = true ∧
    ((runAccesses initializeSystem [lw 0 0 5 0, lw 0 0 5 0]).nodes 0).caches 0 1 5 = false := by
  refine ⟨by decide, by decide, by decide⟩

/-- Claim C6: evaluation of the write-back on eviction.  Node 0 cpu 0
loads address 8 (tag 0010), loads address 9 (register now 14), store-hits
address 8 (line dirty with data 14, home memory still 13), then loads
address 12, which evicts the dirty line.  The reconstruction yields
address 4, not tag * 4 + cacheIndex = 8, because the doubling happens
only on set tag bits; the directory entry of word 4 is uncached, so
nothing is written back and home memory at address 8 still holds 13
(an odd value, bit 31 set) although the evicted line held 14 (bit 31
clear): reading the address after the eviction does not return the
evicted value. -/
theorem writeBack_address_diverges :
    dirDirty ((runAccesses initializeSystem [lw 0 0 8 0, lw 0 0 9 0, sw 0 0 8 0]).nodes 0) 8
      = true ∧
    ((runAccesses initializeSystem [lw 0 0 8 0, lw 0 0 9 0, sw 0 0 8 0]).nodes 0).caches 0 0 0
      = true ∧
    reconstructedAddress
      ((runAccesses initializeSystem [lw 0 0 8 0, lw 0 0 9 0, sw 0 0 8 0]).nodes 0) 0 0 = 4 ∧
    ((runAccesses initializeSystem [lw 0 0 8 0, lw 0 0 9 0, sw 0 0 8 0]).nodes 0).caches 0 0 36
      = false ∧
    ((runAccesses initializeSystem [lw 0 0 8 0, lw 0 0 9 0, sw 0 0 8 0, lw 0 0 12 0]).nodes
      0).memory 8 31 = true := by
  refine ⟨by decide, by decide, by decide, by decide, by decide⟩

end NumaSim
